import Mathlib

/-!
Shallow embedding of tools/setup-irc.mjs, the IRC channel setup tool of the
tpac2023-breakouts repository.

Conventions of the embedding:
* JavaScript strings are Lean String.  A materials link field (agenda,
  slides) is a String where the empty string stands for a JS-falsy value
  (absent/undefined/empty), matching the truthiness test the source applies
  to it.
* The list of placeholder markers (todoStrings, imported from
  lib/todostrings.mjs, not part of this excerpt) is passed everywhere as an
  explicit parameter.
* Emitted IRC commands are modelled by the inductive type Cmd; each
  constructor corresponds to one console-trace line / client call of the
  source (/join, /topic, /invite, /msg).
* validateSession (lib/validate.mjs, not part of this excerpt) is passed
  as a function from session numbers to validation findings.
-/

namespace SetupIrc

/-- Nickname the driving bot connects as (const botName, line 29). -/
def botName : String := "tpac-breakout-bot"

/-- Materials sub-object of a session description; empty string = JS-falsy. -/
structure Materials where
  agenda : String
  slides : String
deriving DecidableEq

/-- Session description object: shortname (IRC channel), attendance flag,
materials. -/
structure Description where
  shortname : String
  attendance : String
  materials : Materials
deriving DecidableEq

/-- A session chair (only the name is used by this tool). -/
structure Chair where
  name : String
deriving DecidableEq

/-- A breakout-session record as used by this tool. -/
structure Session where
  number : Nat
  title : String
  slot : String
  room : String
  repository : String
  chairs : List Chair
  description : Description
deriving DecidableEq

/-- Room reference data (name, display label). -/
structure Room where
  name : String
  label : String
deriving DecidableEq

/-- Slot reference data; only the name is used (for ordering). -/
structure Slot where
  name : String
deriving DecidableEq

/-- getChannel (lines 34-36): channel = session.description.shortname. -/
def getChannel (session : Session) : String :=
  session.description.shortname

/-- One IRC command as echoed to the console trace. -/
inductive Cmd where
  | join (channel : String)
  | topic (channel : String) (text : String)
  | invite (nick : String) (channel : String)
  | msg (channel : String) (text : String)
deriving DecidableEq

/-- Room lookup of setTopic (line 130):
project.rooms.find(r => r.name === session.room). -/
def findRoom (rooms : List Room) (session : Session) : Option Room :=
  rooms.find? (fun r => r.name == session.room)

/-- roomLabel (line 131): a dash-label-space segment when the room is found,
else the empty string. -/
def roomLabel (rooms : List Room) (session : Session) : String :=
  match findRoom rooms session with
  | some room => "- " ++ room.label ++ " "
  | none => ""

/-- Topic text (line 132):
TPAC breakout: session.title, space, roomLabel, dash-space, session.slot. -/
def topicText (rooms : List Room) (session : Session) : String :=
  "TPAC breakout: " ++ session.title ++ " " ++ roomLabel rooms session ++ "- " ++ session.slot

/-- setTopic (lines 128-137) as the command it emits. -/
def setTopic (rooms : List Room) (session : Session) : Cmd :=
  Cmd.topic (getChannel session) (topicText rooms session)

/-- inviteBot (lines 120-126) as the command it emits. -/
def inviteBot (session : Session) (name : String) : Cmd :=
  Cmd.invite name (getChannel session)

/-- The truthiness-and-placeholder test the source applies to a materials
link (lines 173-174 and 180-181): the link is JS-truthy (non-empty) and not
one of the todoStrings markers. -/
def isRealLink (todoStrings : List String) (link : String) : Bool :=
  link != "" && !(todoStrings.contains link)

/-- The text of the agenda announcement (lines 173-179): the agenda link
verbatim when set and not a placeholder, else the synthesized issue URL. -/
def agendaLine (todoStrings : List String) (session : Session) : String :=
  if isRealLink todoStrings session.description.materials.agenda then
    "Agenda: " ++ session.description.materials.agenda
  else
    "Agenda: https://github.com/" ++ session.repository ++ "/issues/" ++
      toString session.number

/-- The command sequence sent when RRSAgent joins the channel
(lines 168-193 of sendChannelBotCommands), in emission order. -/
def rrsagentCmds (todoStrings : List String) (session : Session) : List Cmd :=
  let channel := getChannel session
  [Cmd.msg channel "RRSAgent, do not leave",
   Cmd.msg channel ("RRSAgent, make logs " ++
     (if session.description.attendance = "restricted" then "member" else "public")),
   Cmd.msg channel ("Meeting: " ++ session.title),
   Cmd.msg channel ("Chair: " ++ String.intercalate ", " (session.chairs.map Chair.name)),
   Cmd.msg channel (agendaLine todoStrings session)] ++
  (if isRealLink todoStrings session.description.materials.slides then
    [Cmd.msg channel ("Slideset: " ++ session.description.materials.slides)]
  else []) ++
  [Cmd.msg channel "clear agenda",
   Cmd.msg channel "agenda+ Pick a scribe",
   Cmd.msg channel "agenda+ Reminders: code of conduct, health policies, recorded session policy",
   Cmd.msg channel "agenda+ Goal of this session",
   Cmd.msg channel "agenda+ Discussion",
   Cmd.msg channel "agenda+ Next steps / where discussion continues"]

/-- The command sequence sent when the driving bot itself joins the channel
(lines 153-166 of sendChannelBotCommands), in emission order. -/
def drivingBotCmds (rooms : List Room) (dismissBots : Bool) (session : Session) : List Cmd :=
  let channel := getChannel session
  if dismissBots then
    [Cmd.msg channel "RRSAgent, draft minutes",
     Cmd.msg channel "RRSAgent, bye",
     Cmd.msg channel "Zakim, bye"]
  else
    [setTopic rooms session, inviteBot session "Zakim", inviteBot session "RRSAgent"]

/-- sendChannelBotCommands (lines 146-197): look the channel up among the
representative sessions, then dispatch on the joining nickname.  A nickname
other than the driving bot or RRSAgent (including Zakim) triggers nothing. -/
def sendChannelBotCommands (rooms : List Room) (todoStrings : List String)
    (dismissBots : Bool) (sessions : List Session) (channel nick : String) : List Cmd :=
  match sessions.find? (fun s => channel == getChannel s) with
  | none => []
  | some session =>
    if nick = botName then drivingBotCmds rooms dismissBots session
    else if nick = "RRSAgent" then rrsagentCmds todoStrings session
    else []

/-- The dismiss-mode command sequence for one session, as produced by the
dry-run loop (lines 200-210): only the driving-bot transition runs. -/
def dismissModeCmds (rooms : List Room) (session : Session) : List Cmd :=
  drivingBotCmds rooms true session

/-- The non-dismiss-mode command sequence for one session, as produced by the
dry-run loop (lines 200-210): driving-bot transition, then RRSAgent
transition. -/
def nonDismissModeCmds (rooms : List Room) (todoStrings : List String)
    (session : Session) : List Cmd :=
  drivingBotCmds rooms false session ++ rrsagentCmds todoStrings session

/-! ### Channel grouping (lines 86-102 of main) -/

/-- Slot position used by the group comparator (lines 95-96):
project.slots.findIndex(slot => slot.name === s.slot), which is -1 when the
slot is not found. -/
def slotIndex (slots : List Slot) (name : String) : Int :=
  match slots.findIdx? (fun slot => slot.name == name) with
  | some i => (i : Int)
  | none => -1

/-- The ordering the comparator of line 94-98 sorts by: ascending slot
index. -/
def sessLE (slots : List Slot) (s1 s2 : Session) : Prop :=
  slotIndex slots s1.slot ≤ slotIndex slots s2.slot

instance (slots : List Slot) : DecidableRel (sessLE slots) := fun s1 s2 =>
  inferInstanceAs (Decidable (slotIndex slots s1.slot ≤ slotIndex slots s2.slot))

instance (slots : List Slot) : IsTotal Session (sessLE slots) :=
  ⟨fun s1 s2 => Int.le_total (slotIndex slots s1.slot) (slotIndex slots s2.slot)⟩

instance (slots : List Slot) : IsTrans Session (sessLE slots) :=
  ⟨fun _ _ _ h1 h2 => le_trans h1 h2⟩

/-- channels[channel].sort(comparator) of lines 94-98.  JS Array.sort is a
stable ascending sort for this numeric comparator; insertion sort by the
same key is the same stable ascending sort. -/
def sortGroup (slots : List Slot) (group : List Session) : List Session :=
  List.insertionSort (sessLE slots) group

/-- One iteration of the grouping loop (lines 88-99): push the session onto
its channel's group and re-sort that group, creating the group at the end
when the key is new (a JS object keeps string keys in insertion order).
The channels object is modelled as an association list with unique keys;
updating channels[channel] updates the single entry with that key. -/
def addSession (slots : List Slot) :
    List (String × List Session) → Session → List (String × List Session)
  | [], session => [(getChannel session, sortGroup slots [session])]
  | p :: rest, session =>
    if p.1 == getChannel session then
      (p.1, sortGroup slots (p.2 ++ [session])) :: rest
    else
      p :: addSession slots rest session

/-- The channels mapping built by the loop of lines 87-99. -/
def computeChannels (slots : List Slot) (sessions : List Session) :
    List (String × List Session) :=
  sessions.foldl (addSession slots) []

/-- Line 100: sessions = Object.values(channels).map(sessions =>
sessions[0]) — the first element of each group becomes the channel's
representative session. -/
def representatives (slots : List Slot) (sessions : List Session) : List Session :=
  (computeChannels slots sessions).filterMap (fun p => p.2.head?)

/-! ### Validation phase (lines 67-83 of main) -/

/-- One finding returned by validateSession (lib/validate.mjs). -/
structure ValidationError where
  severity : String
  message : String
deriving DecidableEq

/-- Lines 68-72: a session is dropped when validateSession reports at least
one finding of severity error. -/
def hasBlockingError (validate : Nat → List ValidationError) (session : Session) : Bool :=
  !((validate session.number).filter (fun e => e.severity == "error")).isEmpty

/-- Lines 67-75: keep only the sessions without blocking errors. -/
def dropInvalidSessions (validate : Nat → List ValidationError)
    (sessions : List Session) : List Session :=
  sessions.filter (fun s => !(hasBlockingError validate s))

/-- Lines 67-83: drop invalid sessions; when a specific session number was
requested and nothing survives, fail with the error of line 78, otherwise
continue with the surviving sessions. -/
def validationPhase (number : Option Nat) (validate : Nat → List ValidationError)
    (sessions : List Session) : Except String (List Session) :=
  let valid := dropInvalidSessions validate sessions
  match number with
  | some n =>
    if valid.isEmpty then
      Except.error ("Session " ++ toString n ++ " contains errors that need fixing")
    else
      Except.ok valid
  | none => Except.ok valid

/-! ### Live-run event handlers (lines 225-257 of main) -/

/-- A raw message from the IRC client, as seen by the error listener:
a command name and positional arguments. -/
structure IrcMessage where
  command : String
  args : List String
deriving DecidableEq

/-- The join listener (lines 240-242): run the per-channel bot commands for
the joining nickname. -/
def handleJoin (rooms : List Room) (todoStrings : List String) (dismissBots : Bool)
    (sessions : List Session) (channel nick : String) : List Cmd :=
  sendChannelBotCommands rooms todoStrings dismissBots sessions channel nick

/-- The error listener (lines 229-238): an err_useronchannel error carries
the nickname as args[1] and the channel as args[2] and replays the join
transition for them; any other error is re-raised. -/
def handleError (rooms : List Room) (todoStrings : List String) (dismissBots : Bool)
    (sessions : List Session) (err : IrcMessage) : Except IrcMessage (List Cmd) :=
  if err.command = "err_useronchannel" then
    Except.ok (sendChannelBotCommands rooms todoStrings dismissBots sessions
      (err.args.getD 2 "") (err.args.getD 1 ""))
  else
    Except.error err

/-- A session together with its runtime done flag (set by the part
listener). -/
structure SessionState where
  session : Session
  done : Bool
deriving DecidableEq

/-- sessions.find(s => channel === getChannel(s)) followed by
session.done = true (lines 248-252): mark the first session whose channel
matches; leave the state unchanged when none matches. -/
def markDone (channel : String) : List SessionState → List SessionState
  | [] => []
  | st :: rest =>
    if channel == getChannel st.session then
      { st with done := true } :: rest
    else
      st :: markDone channel rest

/-- The part listener (lines 244-257), restricted to its state effect:
ignore parts of nicknames other than the driving bot, else mark the
channel's session done. -/
def handlePart (states : List SessionState) (channel nick : String) :
    List SessionState :=
  if nick = botName then markDone channel states else states

/-! ### Auxiliary definitions and concrete evaluation data -/

/-- First character of a string; command texts with different fixed prefixes
are separated by it. -/
def headChar (s : String) : Option Char :=
  s.data.head?

/-- A concrete session used to evaluate the embedding. -/
def demoSession : Session :=
  { number := 42
    title := "Sample session"
    slot := "9:30"
    room := "Main hall"
    repository := "w3c/tpac2023-breakouts"
    chairs := [{ name := "Alice" }, { name := "Bob" }]
    description :=
      { shortname := "breakout-1"
        attendance := "open"
        materials := { agenda := "@@", slides := "" } } }

/-- A second concrete session, sharing the demo channel but in a later
slot. -/
def demoSession2 : Session :=
  { number := 57
    title := "Second session"
    slot := "11:00"
    room := "Side room"
    repository := "w3c/tpac2023-breakouts"
    chairs := [{ name := "Carol" }]
    description :=
      { shortname := "breakout-1"
        attendance := "restricted"
        materials := { agenda := "https://example.org/agenda", slides := "@@" } } }

/-- Concrete room reference data. -/
def demoRooms : List Room :=
  [{ name := "Main hall", label := "1st floor" }]

/-- Concrete slot ordering. -/
def demoSlots : List Slot :=
  [{ name := "9:30" }, { name := "11:00" }]

/-- Concrete placeholder markers. -/
def demoTodo : List String :=
  ["@@"]

/-- Invariant of the grouping loop: after processing a prefix of the
sessions, the accumulated channels mapping has pairwise distinct keys,
every processed session's channel is a key, and each group comes from a
processed session, holds exactly the processed sessions of its channel, and
is sorted by slot position. -/
def ChannelsInv (slots : List Slot) (processed : List Session)
    (channels : List (String × List Session)) : Prop :=
  (channels.map Prod.fst).Nodup ∧
  (∀ t ∈ processed, getChannel t ∈ channels.map Prod.fst) ∧
  (∀ p ∈ channels, (∃ t ∈ processed, getChannel t = p.1) ∧
    List.Perm p.2 (processed.filter (fun t => getChannel t == p.1)) ∧
    p.2.Sorted (sessLE slots))

/-! ### Helper lemmas -/

theorem headChar_append (p t : String) (c : Char) (h : headChar p = some c) :
    headChar (p ++ t) = some c := by
  unfold headChar at h ⊢
  rw [String.data_append]
  cases hp : p.data with
  | nil => rw [hp] at h; exact absurd h (by simp)
  | cons a l => rw [hp] at h; simpa using h

theorem false_of_eq_of_headChar {s t : String} {cs ct : Char} (h : s = t)
    (hs : headChar s = some cs) (ht : headChar t = some ct) (hne : cs ≠ ct) :
    False := by
  rw [h, ht] at hs
  exact hne (Option.some.inj hs).symm

/-- Variant of false_of_eq_of_headChar taking the two characters
explicitly, so that both sides can be discharged by decide. -/
theorem false_of_eq_of_headChar2 (cs ct : Char) {s t : String} (h : s = t)
    (hs : headChar s = some cs) (ht : headChar t = some ct) (hne : cs ≠ ct) :
    False :=
  false_of_eq_of_headChar h hs ht hne

theorem string_append_left_cancel {p a b : String} (h : p ++ a = p ++ b) :
    a = b := by
  apply String.ext
  have hd := congrArg String.data h
  rw [String.data_append, String.data_append] at hd
  exact List.append_cancel_left hd

theorem headChar_agendaLine (todoStrings : List String) (session : Session) :
    headChar (agendaLine todoStrings session) = some 'A' := by
  unfold agendaLine
  split
  · exact headChar_append _ _ _ (by decide)
  · exact headChar_append _ _ _ (headChar_append _ _ _ (headChar_append _ _ _ (by decide)))

theorem string_empty_append (s : String) : "" ++ s = s := by
  apply String.ext
  rw [String.data_append]
  exact List.nil_append s.data

theorem space_dash_merge (x : String) : " " ++ ("- " ++ x) = " - " ++ x := by
  rw [← String.append_assoc]
  exact congrArg (fun p => p ++ x) (by decide)

/-! ### Claim theorems -/

/-- C10: when the session's room matches no entry of the room list, the
topic command still goes out and its text is TPAC breakout: title - slot,
with the room label segment omitted entirely; when the room is found, the
text is TPAC breakout: title - label - slot. -/
theorem topicRoomLabel (rooms : List Room) (session : Session) :
    ((∀ r ∈ rooms, r.name ≠ session.room) →
      setTopic rooms session = Cmd.topic (getChannel session)
        ("TPAC breakout: " ++ session.title ++ " - " ++ session.slot)) ∧
    (∀ room, findRoom rooms session = some room →
      setTopic rooms session = Cmd.topic (getChannel session)
        ("TPAC breakout: " ++ session.title ++ " - " ++ room.label ++ " - " ++
          session.slot)) := by
  constructor
  · intro h
    have hf : findRoom rooms session = none := by
      unfold findRoom
      apply List.find?_eq_none.mpr
      intro r hr
      simpa using h r hr
    simp [setTopic, topicText, roomLabel, hf, String.append_assoc,
      string_empty_append, space_dash_merge]
  · intro room h
    simp [setTopic, topicText, roomLabel, h, String.append_assoc,
      space_dash_merge]

/-- Witness for C10 at concrete inputs: an unknown room drops the label
segment, a known room keeps it. -/
theorem topicRoomLabel_witness :
    setTopic [] demoSession = Cmd.topic "breakout-1"
        ("TPAC breakout: " ++ "Sample session" ++ " - " ++ "9:30") ∧
    setTopic demoRooms demoSession = Cmd.topic "breakout-1"
        ("TPAC breakout: " ++ "Sample session" ++ " - " ++ "1st floor" ++ " - " ++
          "9:30") :=
  ⟨(topicRoomLabel [] demoSession).1 (by simp),
   (topicRoomLabel demoRooms demoSession).2
     { name := "Main hall", label := "1st floor" } (by decide)⟩

/-- C9: the log-visibility command (second command of the RRSAgent
sequence) says member exactly when the session description's attendance is
restricted, and public in every other case. -/
theorem logVisibility (todoStrings : List String) (session : Session) :
    (session.description.attendance = "restricted" →
      (rrsagentCmds todoStrings session)[1]? =
        some (Cmd.msg (getChannel session) "RRSAgent, make logs member")) ∧
    (session.description.attendance ≠ "restricted" →
      (rrsagentCmds todoStrings session)[1]? =
        some (Cmd.msg (getChannel session) "RRSAgent, make logs public")) := by
  constructor
  · intro h
    have hv : ("RRSAgent, make logs " : String) ++ "member" =
        "RRSAgent, make logs member" := by decide
    simp [rrsagentCmds, h, hv]
  · intro h
    have hv : ("RRSAgent, make logs " : String) ++ "public" =
        "RRSAgent, make logs public" := by decide
    simp [rrsagentCmds, h, hv]

/-- Witness for C9 at concrete inputs: restricted attendance gives member,
open attendance gives public. -/
theorem logVisibility_witness :
    (rrsagentCmds demoTodo demoSession2)[1]? =
      some (Cmd.msg "breakout-1" "RRSAgent, make logs member") ∧
    (rrsagentCmds demoTodo demoSession)[1]? =
      some (Cmd.msg "breakout-1" "RRSAgent, make logs public") :=
  ⟨(logVisibility demoTodo demoSession2).1 rfl,
   (logVisibility demoTodo demoSession).2 (by decide)⟩

/-- C3: the agenda announcement (fifth command of the RRSAgent sequence)
synthesizes the issue URL when the agenda link is absent (JS-falsy, i.e.
empty) or equal to a placeholder marker, and repeats the link verbatim when
it is present and no placeholder. -/
theorem agendaSelection (todoStrings : List String) (session : Session) :
    ((session.description.materials.agenda = "" ∨
        session.description.materials.agenda ∈ todoStrings) →
      (rrsagentCmds todoStrings session)[4]? =
        some (Cmd.msg (getChannel session)
          ("Agenda: https://github.com/" ++ session.repository ++ "/issues/" ++
            toString session.number))) ∧
    (session.description.materials.agenda ≠ "" →
      session.description.materials.agenda ∉ todoStrings →
      (rrsagentCmds todoStrings session)[4]? =
        some (Cmd.msg (getChannel session)
          ("Agenda: " ++ session.description.materials.agenda))) := by
  constructor
  · intro h
    have hfalse : isRealLink todoStrings session.description.materials.agenda = false := by
      unfold isRealLink
      rcases h with h | h
      · simp [h]
      · simp [h]
    simp [rrsagentCmds, agendaLine, hfalse]
  · intro h1 h2
    have htrue : isRealLink todoStrings session.description.materials.agenda = true := by
      unfold isRealLink
      simp [h1, h2]
    simp [rrsagentCmds, agendaLine, htrue]

/-- Witness for C3 at concrete inputs: a placeholder agenda gives the
synthesized issue URL, a real agenda link is repeated verbatim. -/
theorem agendaSelection_witness :
    (rrsagentCmds demoTodo demoSession)[4]? =
      some (Cmd.msg "breakout-1"
        ("Agenda: https://github.com/" ++ "w3c/tpac2023-breakouts" ++ "/issues/" ++
          toString 42)) ∧
    (rrsagentCmds demoTodo demoSession2)[4]? =
      some (Cmd.msg "breakout-1" ("Agenda: " ++ "https://example.org/agenda")) :=
  ⟨(agendaSelection demoTodo demoSession).1 (by decide),
   (agendaSelection demoTodo demoSession2).2 (by decide) (by decide)⟩

/-- C1 counterexample: at a concrete session, the non-dismiss driving-bot
sequence is not topic, invite RRSAgent, invite Zakim as the claim states:
the code invites Zakim before RRSAgent (lines 164-165). -/
theorem drivingBotOrderClaim_cex :
    sendChannelBotCommands demoRooms demoTodo false [demoSession] "breakout-1" botName ≠
      [setTopic demoRooms demoSession,
       Cmd.invite "RRSAgent" "breakout-1",
       Cmd.invite "Zakim" "breakout-1"] := by decide

/-- C1 amended: when the driving bot's own nickname joins a channel with a
representative session and dismiss mode is off, the planner emits, in
order, the topic command, then an invite for Zakim (the timing bot), then
an invite for RRSAgent (the logging bot). -/
theorem drivingBotOrder (rooms : List Room) (todoStrings : List String)
    (sessions : List Session) (channel : String) (session : Session)
    (h : sessions.find? (fun s => channel == getChannel s) = some session) :
    sendChannelBotCommands rooms todoStrings false sessions channel botName =
      [setTopic rooms session,
       Cmd.invite "Zakim" (getChannel session),
       Cmd.invite "RRSAgent" (getChannel session)] := by
  unfold sendChannelBotCommands
  rw [h]
  simp [drivingBotCmds, inviteBot]

/-- Witness for the amended C1 at a concrete input. -/
theorem drivingBotOrder_witness :
    sendChannelBotCommands demoRooms demoTodo false [demoSession] "breakout-1" botName =
      [setTopic demoRooms demoSession,
       Cmd.invite "Zakim" "breakout-1",
       Cmd.invite "RRSAgent" "breakout-1"] :=
  drivingBotOrder demoRooms demoTodo [demoSession] "breakout-1" demoSession (by decide)

/-- C5: when a specific session number is requested and every matching
session carries a blocking validation error, the run fails with the fatal
error naming that number (line 78); when all sessions are requested, the
invalid sessions are dropped and the run continues with the survivors. -/
theorem validationFailure (validate : Nat → List ValidationError)
    (sessions : List Session) (n : Nat) :
    ((∀ s ∈ sessions, hasBlockingError validate s = true) →
      validationPhase (some n) validate sessions =
        Except.error ("Session " ++ toString n ++ " contains errors that need fixing")) ∧
    validationPhase none validate sessions =
      Except.ok (dropInvalidSessions validate sessions) := by
  constructor
  · intro h
    have hnil : dropInvalidSessions validate sessions = [] := by
      unfold dropInvalidSessions
      apply List.filter_eq_nil_iff.mpr
      intro s hs
      simp [h s hs]
    simp [validationPhase, hnil]
  · rfl

/-- Witness for C5 at a concrete input: a session whose validation reports
an error makes the number-targeted run fail with the message naming the
number. -/
theorem validationFailure_witness :
    validationPhase (some 42)
        (fun _ => [{ severity := "error", message := "bad" }]) [demoSession] =
      Except.error ("Session " ++ toString 42 ++ " contains errors that need fixing") :=
  (validationFailure (fun _ => [{ severity := "error", message := "bad" }])
    [demoSession] 42).1 (by decide)

theorem msg_ne_msg_of_text {ch1 ch2 t1 t2 : String} (h : t1 ≠ t2) :
    Cmd.msg ch1 t1 ≠ Cmd.msg ch2 t2 := by
  intro he
  injection he with h1 h2
  exact h h2

/-- The materials-link test unfolded to its two propositional components. -/
theorem isRealLink_iff (todoStrings : List String) (link : String) :
    isRealLink todoStrings link = true ↔ (link ≠ "" ∧ link ∉ todoStrings) := by
  unfold isRealLink
  simp

theorem headChar_meeting (x : String) : headChar ("Meeting: " ++ x) = some 'M' :=
  headChar_append _ _ _ (by decide)

theorem headChar_chair (x : String) : headChar ("Chair: " ++ x) = some 'C' :=
  headChar_append _ _ _ (by decide)

theorem headChar_slideset (x : String) : headChar ("Slideset: " ++ x) = some 'S' :=
  headChar_append _ _ _ (by decide)

theorem headChar_makeLogs (x : String) :
    headChar ("RRSAgent, make logs " ++ x) = some 'R' :=
  headChar_append _ _ _ (by decide)

/-- Case analysis of the commands the RRSAgent sequence can contain. -/
theorem mem_rrsagentCmds (todoStrings : List String) (session : Session)
    (c : Cmd) (hc : c ∈ rrsagentCmds todoStrings session) :
    c = Cmd.msg (getChannel session) "RRSAgent, do not leave" ∨
    c = Cmd.msg (getChannel session) ("RRSAgent, make logs " ++
      (if session.description.attendance = "restricted" then "member" else "public")) ∨
    c = Cmd.msg (getChannel session) ("Meeting: " ++ session.title) ∨
    c = Cmd.msg (getChannel session) ("Chair: " ++
      String.intercalate ", " (session.chairs.map Chair.name)) ∨
    c = Cmd.msg (getChannel session) (agendaLine todoStrings session) ∨
    (isRealLink todoStrings session.description.materials.slides = true ∧
      c = Cmd.msg (getChannel session)
        ("Slideset: " ++ session.description.materials.slides)) ∨
    c = Cmd.msg (getChannel session) "clear agenda" ∨
    c = Cmd.msg (getChannel session) "agenda+ Pick a scribe" ∨
    c = Cmd.msg (getChannel session)
      "agenda+ Reminders: code of conduct, health policies, recorded session policy" ∨
    c = Cmd.msg (getChannel session) "agenda+ Goal of this session" ∨
    c = Cmd.msg (getChannel session) "agenda+ Discussion" ∨
    c = Cmd.msg (getChannel session) "agenda+ Next steps / where discussion continues" := by
  by_cases hs : isRealLink todoStrings session.description.materials.slides
  · simp only [rrsagentCmds, hs, if_pos, List.mem_append, List.mem_cons,
      List.not_mem_nil, or_false] at hc
    tauto
  · simp only [rrsagentCmds, hs, Bool.false_eq_true, if_false, List.mem_append,
      List.mem_cons, List.not_mem_nil, or_false] at hc
    tauto

theorem msg_ne_dismiss_of_headChar {t : String} {c : Char}
    (ht : headChar t = some c) (hR : c ≠ 'R') (hZ : c ≠ 'Z') (ch1 ch2 : String) :
    Cmd.msg ch1 t ≠ Cmd.msg ch2 "RRSAgent, draft minutes" ∧
    Cmd.msg ch1 t ≠ Cmd.msg ch2 "RRSAgent, bye" ∧
    Cmd.msg ch1 t ≠ Cmd.msg ch2 "Zakim, bye" :=
  ⟨msg_ne_msg_of_text (fun he => false_of_eq_of_headChar he ht (by decide) hR),
   msg_ne_msg_of_text (fun he => false_of_eq_of_headChar he ht (by decide) hR),
   msg_ne_msg_of_text (fun he => false_of_eq_of_headChar he ht (by decide) hZ)⟩

theorem msg_ne_dismiss_concrete {t : String}
    (h1 : t ≠ "RRSAgent, draft minutes") (h2 : t ≠ "RRSAgent, bye")
    (h3 : t ≠ "Zakim, bye") (ch1 ch2 : String) :
    Cmd.msg ch1 t ≠ Cmd.msg ch2 "RRSAgent, draft minutes" ∧
    Cmd.msg ch1 t ≠ Cmd.msg ch2 "RRSAgent, bye" ∧
    Cmd.msg ch1 t ≠ Cmd.msg ch2 "Zakim, bye" :=
  ⟨msg_ne_msg_of_text h1, msg_ne_msg_of_text h2, msg_ne_msg_of_text h3⟩

/-- No command of the RRSAgent sequence is one of the three dismiss-mode
messages. -/
theorem rrsagent_ne_dismiss (todoStrings : List String) (session : Session)
    (c : Cmd) (hc : c ∈ rrsagentCmds todoStrings session) (ch : String) :
    c ≠ Cmd.msg ch "RRSAgent, draft minutes" ∧
    c ≠ Cmd.msg ch "RRSAgent, bye" ∧
    c ≠ Cmd.msg ch "Zakim, bye" := by
  rcases mem_rrsagentCmds todoStrings session c hc with
    h | h | h | h | h | ⟨hsl, h⟩ | h | h | h | h | h | h <;> subst h
  · exact msg_ne_dismiss_concrete (by decide) (by decide) (by decide) _ _
  · refine ⟨msg_ne_msg_of_text ?_, msg_ne_msg_of_text ?_, msg_ne_msg_of_text ?_⟩ <;>
      split <;> decide
  · exact msg_ne_dismiss_of_headChar (headChar_meeting _) (by decide) (by decide) _ _
  · exact msg_ne_dismiss_of_headChar (headChar_chair _) (by decide) (by decide) _ _
  · exact msg_ne_dismiss_of_headChar (headChar_agendaLine _ _) (by decide) (by decide) _ _
  · exact msg_ne_dismiss_of_headChar (headChar_slideset _) (by decide) (by decide) _ _
  · exact msg_ne_dismiss_concrete (by decide) (by decide) (by decide) _ _
  · exact msg_ne_dismiss_concrete (by decide) (by decide) (by decide) _ _
  · exact msg_ne_dismiss_concrete (by decide) (by decide) (by decide) _ _
  · exact msg_ne_dismiss_concrete (by decide) (by decide) (by decide) _ _
  · exact msg_ne_dismiss_concrete (by decide) (by decide) (by decide) _ _
  · exact msg_ne_dismiss_concrete (by decide) (by decide) (by decide) _ _

/-- C4: the dismiss-mode sequence contains no topic and no invite command;
the non-dismiss-mode sequence contains none of the draft-minutes/bye
messages; and the two sequences are disjoint. -/
theorem modeDisjoint (rooms : List Room) (todoStrings : List String)
    (session : Session) :
    (∀ ch t, Cmd.topic ch t ∉ dismissModeCmds rooms session) ∧
    (∀ nick ch, Cmd.invite nick ch ∉ dismissModeCmds rooms session) ∧
    (∀ ch,
      Cmd.msg ch "RRSAgent, draft minutes" ∉
        nonDismissModeCmds rooms todoStrings session ∧
      Cmd.msg ch "RRSAgent, bye" ∉ nonDismissModeCmds rooms todoStrings session ∧
      Cmd.msg ch "Zakim, bye" ∉ nonDismissModeCmds rooms todoStrings session) ∧
    List.Disjoint (dismissModeCmds rooms session)
      (nonDismissModeCmds rooms todoStrings session) := by
  have hnon : ∀ ch,
      Cmd.msg ch "RRSAgent, draft minutes" ∉
        nonDismissModeCmds rooms todoStrings session ∧
      Cmd.msg ch "RRSAgent, bye" ∉ nonDismissModeCmds rooms todoStrings session ∧
      Cmd.msg ch "Zakim, bye" ∉ nonDismissModeCmds rooms todoStrings session := by
    intro ch
    refine ⟨?_, ?_, ?_⟩ <;> intro hmem <;>
      rcases List.mem_append.mp hmem with h | h
    · simp [drivingBotCmds, setTopic, inviteBot] at h
    · exact (rrsagent_ne_dismiss todoStrings session _ h ch).1 rfl
    · simp [drivingBotCmds, setTopic, inviteBot] at h
    · exact (rrsagent_ne_dismiss todoStrings session _ h ch).2.1 rfl
    · simp [drivingBotCmds, setTopic, inviteBot] at h
    · exact (rrsagent_ne_dismiss todoStrings session _ h ch).2.2 rfl
  refine ⟨?_, ?_, hnon, ?_⟩
  · intro ch t
    simp [dismissModeCmds, drivingBotCmds]
  · intro nick ch
    simp [dismissModeCmds, drivingBotCmds]
  · intro c hc1 hc2
    simp only [dismissModeCmds, drivingBotCmds, if_pos, List.mem_cons,
      List.not_mem_nil, or_false] at hc1
    rcases hc1 with h | h | h <;> subst h
    · exact (hnon (getChannel session)).1 hc2
    · exact (hnon (getChannel session)).2.1 hc2
    · exact (hnon (getChannel session)).2.2 hc2

/-- Witness for C4: the two mode sequences of the concrete demo session are
disjoint. -/
theorem modeDisjoint_witness :
    List.Disjoint (dismissModeCmds demoRooms demoSession)
      (nonDismissModeCmds demoRooms demoTodo demoSession) :=
  (modeDisjoint demoRooms demoTodo demoSession).2.2.2

/-- C8: the slide announcement occurs in the RRSAgent sequence exactly when
the slides link is present (JS-truthy) and no placeholder, and any slide
announcement in the sequence carries that link verbatim. -/
theorem slidesetAnnouncement (todoStrings : List String) (session : Session) :
    (Cmd.msg (getChannel session)
        ("Slideset: " ++ session.description.materials.slides) ∈
          rrsagentCmds todoStrings session ↔
      (session.description.materials.slides ≠ "" ∧
        session.description.materials.slides ∉ todoStrings)) ∧
    (∀ t, Cmd.msg (getChannel session) ("Slideset: " ++ t) ∈
        rrsagentCmds todoStrings session →
      t = session.description.materials.slides) := by
  have huniq : ∀ t, Cmd.msg (getChannel session) ("Slideset: " ++ t) ∈
      rrsagentCmds todoStrings session →
      isRealLink todoStrings session.description.materials.slides = true ∧
        t = session.description.materials.slides := by
    intro t hm
    rcases mem_rrsagentCmds todoStrings session _ hm with
      h | h | h | h | h | ⟨hsl, h⟩ | h | h | h | h | h | h <;>
      injection h with hch htext
    · exact False.elim (false_of_eq_of_headChar2 'S' 'R' htext (headChar_slideset t)
        (by decide) (by decide))
    · exact False.elim (false_of_eq_of_headChar2 'S' 'R' htext (headChar_slideset t)
        (headChar_makeLogs _) (by decide))
    · exact False.elim (false_of_eq_of_headChar2 'S' 'M' htext (headChar_slideset t)
        (headChar_meeting _) (by decide))
    · exact False.elim (false_of_eq_of_headChar2 'S' 'C' htext (headChar_slideset t)
        (headChar_chair _) (by decide))
    · exact False.elim (false_of_eq_of_headChar2 'S' 'A' htext (headChar_slideset t)
        (headChar_agendaLine _ _) (by decide))
    · exact ⟨hsl, string_append_left_cancel htext⟩
    · exact False.elim (false_of_eq_of_headChar2 'S' 'c' htext (headChar_slideset t)
        (by decide) (by decide))
    · exact False.elim (false_of_eq_of_headChar2 'S' 'a' htext (headChar_slideset t)
        (by decide) (by decide))
    · exact False.elim (false_of_eq_of_headChar2 'S' 'a' htext (headChar_slideset t)
        (by decide) (by decide))
    · exact False.elim (false_of_eq_of_headChar2 'S' 'a' htext (headChar_slideset t)
        (by decide) (by decide))
    · exact False.elim (false_of_eq_of_headChar2 'S' 'a' htext (headChar_slideset t)
        (by decide) (by decide))
    · exact False.elim (false_of_eq_of_headChar2 'S' 'a' htext (headChar_slideset t)
        (by decide) (by decide))
  constructor
  · constructor
    · intro hm
      exact (isRealLink_iff todoStrings session.description.materials.slides).mp
        (huniq _ hm).1
    · intro hreal
      have hr : isRealLink todoStrings session.description.materials.slides = true :=
        (isRealLink_iff todoStrings session.description.materials.slides).mpr hreal
      simp [rrsagentCmds, hr]
  · intro t hm
    exact (huniq t hm).2

/-- Witness for C8: with no placeholder markers configured, the demo
session's slide link @@ counts as present and is announced verbatim. -/
theorem slidesetAnnouncement_witness :
    ("@@" ≠ "" ∧ "@@" ∉ ([] : List String)) ∧
    Cmd.msg "breakout-1" ("Slideset: " ++ "@@") ∈ rrsagentCmds [] demoSession2 :=
  ⟨⟨by decide, by decide⟩,
   (slidesetAnnouncement [] demoSession2).1.mpr ⟨by decide, by decide⟩⟩

/-- markDone leaves a state without a matching channel unchanged. -/
theorem markDone_of_no_match (channel : String) (states : List SessionState)
    (h : ∀ st ∈ states, getChannel st.session ≠ channel) :
    markDone channel states = states := by
  induction states with
  | nil => rfl
  | cons st rest ih =>
    have hne : (channel == getChannel st.session) = false := by
      simp only [beq_eq_false_iff_ne, ne_eq]
      intro he
      exact h st (by simp) he.symm
    simp only [markDone, hne, Bool.false_eq_true, if_false, List.cons.injEq,
      true_and]
    exact ih (fun st2 h2 => h st2 (List.mem_cons_of_mem st h2))

/-- Pointwise effect of markDone: the sessions are untouched, the done flag
is monotone, and a flag that flips records a matching channel. -/
theorem markDone_forall₂ (channel : String) (states : List SessionState) :
    List.Forall₂ (fun st st2 => st2.session = st.session ∧
      (st.done = true → st2.done = true) ∧
      (st.done = false → st2.done = true → channel = getChannel st.session))
      states (markDone channel states) := by
  induction states with
  | nil => exact List.Forall₂.nil
  | cons st rest ih =>
    by_cases hc : (channel == getChannel st.session) = true
    · simp only [markDone, hc, if_true]
      refine List.Forall₂.cons ⟨rfl, fun _ => rfl, fun _ _ => ?_⟩ ?_
      · exact beq_iff_eq.mp hc
      · refine List.forall₂_same.mpr (fun st2 _ => ⟨rfl, fun h => h, ?_⟩)
        intro hf ht
        exact absurd (hf.symm.trans ht) Bool.false_ne_true
    · simp only [markDone, hc, Bool.false_eq_true, if_false]
      refine List.Forall₂.cons ⟨rfl, fun h => h, fun hf ht => ?_⟩ ih
      exact absurd (hf.symm.trans ht) Bool.false_ne_true

/-- C7: part events leave the session list untouched unless the parting
nickname is the driving bot and the channel has a representative session;
the done flag is only ever set (never cleared), and a flag that flips from
false to true records a part of the driving bot on that session's
channel. -/
theorem partHandler (states : List SessionState) (channel nick : String) :
    (nick ≠ botName → handlePart states channel nick = states) ∧
    ((∀ st ∈ states, getChannel st.session ≠ channel) →
      handlePart states channel nick = states) ∧
    List.Forall₂ (fun st st2 => st2.session = st.session ∧
      (st.done = true → st2.done = true) ∧
      (st.done = false → st2.done = true →
        nick = botName ∧ channel = getChannel st.session))
      states (handlePart states channel nick) := by
  by_cases hn : nick = botName
  · subst hn
    refine ⟨fun h => absurd rfl h, ?_, ?_⟩
    · intro h
      simp only [handlePart, if_pos rfl]
      exact markDone_of_no_match channel states h
    · have hmd : handlePart states channel botName = markDone channel states := by
        simp [handlePart]
      rw [hmd]
      exact (markDone_forall₂ channel states).imp
        (fun _ _ h => ⟨h.1, h.2.1, fun hf ht => ⟨rfl, h.2.2 hf ht⟩⟩)
  · refine ⟨fun _ => ?_, fun _ => ?_, ?_⟩
    · simp [handlePart, hn]
    · simp [handlePart, hn]
    · simp only [handlePart, hn, if_false]
      refine List.forall₂_same.mpr (fun st _ => ⟨rfl, fun h => h, ?_⟩)
      intro hf ht
      exact absurd (hf.symm.trans ht) Bool.false_ne_true

/-- Witness for C7 at concrete inputs: a part of a foreign nickname leaves
the state unchanged. -/
theorem partHandler_witness :
    handlePart [{ session := demoSession, done := false }] "breakout-1" "RRSAgent" =
      [{ session := demoSession, done := false }] :=
  (partHandler [{ session := demoSession, done := false }] "breakout-1"
    "RRSAgent").1 (by decide)

/-- C6: an err_useronchannel protocol error, carrying nickname (args[1])
and channel (args[2]), triggers exactly the join transition for that
nickname and channel and is not surfaced; every other protocol error is
re-raised unchanged. -/
theorem errorRecovery (rooms : List Room) (todoStrings : List String)
    (dismissBots : Bool) (sessions : List Session) (err : IrcMessage) :
    (err.command = "err_useronchannel" →
      handleError rooms todoStrings dismissBots sessions err =
        Except.ok (handleJoin rooms todoStrings dismissBots sessions
          (err.args.getD 2 "") (err.args.getD 1 ""))) ∧
    (err.command ≠ "err_useronchannel" →
      handleError rooms todoStrings dismissBots sessions err =
        Except.error err) := by
  constructor <;> intro h <;> simp [handleError, handleJoin, h]

theorem sortGroup_perm (slots : List Slot) (group : List Session) :
    List.Perm (sortGroup slots group) group :=
  List.perm_insertionSort (sessLE slots) group

theorem sortGroup_sorted (slots : List Slot) (group : List Session) :
    (sortGroup slots group).Sorted (sessLE slots) :=
  List.sorted_insertionSort (sessLE slots) group

/-- Adding a session with a fresh channel appends a fresh singleton group. -/
theorem addSession_of_not_mem (slots : List Slot)
    (channels : List (String × List Session)) (s : Session)
    (h : getChannel s ∉ channels.map Prod.fst) :
    addSession slots channels s =
      channels ++ [(getChannel s, sortGroup slots [s])] := by
  induction channels with
  | nil => rfl
  | cons p rest ih =>
    have hp : (p.1 == getChannel s) = false := by
      simp only [beq_eq_false_iff_ne, ne_eq]
      intro he
      exact h (by simp [← he])
    simp only [addSession, hp, Bool.false_eq_true, if_false, List.cons_append,
      List.cons.injEq, true_and]
    exact ih (fun hm => h (by simp [hm]))

/-- Adding a session with an existing channel updates exactly the entry
with that key, when the keys are pairwise distinct. -/
theorem addSession_of_mem (slots : List Slot)
    (channels : List (String × List Session)) (s : Session)
    (hnd : (channels.map Prod.fst).Nodup)
    (h : getChannel s ∈ channels.map Prod.fst) :
    ∃ pre g post, channels = pre ++ (getChannel s, g) :: post ∧
      addSession slots channels s =
        pre ++ (getChannel s, sortGroup slots (g ++ [s])) :: post ∧
      getChannel s ∉ pre.map Prod.fst ∧ getChannel s ∉ post.map Prod.fst := by
  induction channels with
  | nil => simp at h
  | cons p rest ih =>
    rw [List.map_cons] at h hnd
    by_cases hp : p.1 = getChannel s
    · refine ⟨[], p.2, rest, ?_, ?_, by simp, ?_⟩
      · simp [← hp]
      · simp [addSession, hp]
      · rw [← hp]
        exact (List.nodup_cons.mp hnd).1
    · have hr : getChannel s ∈ rest.map Prod.fst := by
        rcases List.mem_cons.mp h with he | he
        · exact absurd he.symm hp
        · exact he
      obtain ⟨pre, g, post, h1, h2, h3, h4⟩ :=
        ih (List.nodup_cons.mp hnd).2 hr
      refine ⟨p :: pre, g, post, by simp [h1], ?_, ?_, h4⟩
      · have hpb : (p.1 == getChannel s) = false := by simp [hp]
        simp only [addSession, hpb, Bool.false_eq_true, if_false,
          List.cons_append, List.cons.injEq, true_and]
        exact h2
      · simp only [List.map_cons, List.mem_cons, not_or]
        exact ⟨fun he => hp he.symm, h3⟩

/-- An entry whose key differs from the new session's channel keeps its
invariant when the processed list is extended by that session. -/
theorem channelsInvEntry_extend (slots : List Slot) (processed : List Session)
    (s : Session) (p : String × List Session)
    (hex : ∃ t ∈ processed, getChannel t = p.1)
    (hperm : List.Perm p.2 (processed.filter (fun t => getChannel t == p.1)))
    (hsort : p.2.Sorted (sessLE slots))
    (hkne : getChannel s ≠ p.1) :
    (∃ t ∈ processed ++ [s], getChannel t = p.1) ∧
    List.Perm p.2 ((processed ++ [s]).filter (fun t => getChannel t == p.1)) ∧
    p.2.Sorted (sessLE slots) := by
  refine ⟨?_, ?_, hsort⟩
  · obtain ⟨t, ht1, ht2⟩ := hex
    exact ⟨t, List.mem_append_left _ ht1, ht2⟩
  · rw [List.filter_append]
    have hnilf : List.filter (fun t => getChannel t == p.1) [s] = [] := by
      simp [hkne]
    rw [hnilf, List.append_nil]
    exact hperm

/-- The grouping invariant is preserved by one iteration of the loop. -/
theorem channelsInv_add (slots : List Slot) (processed : List Session)
    (channels : List (String × List Session)) (s : Session)
    (h : ChannelsInv slots processed channels) :
    ChannelsInv slots (processed ++ [s]) (addSession slots channels s) := by
  obtain ⟨hnd, hkeys, hgroups⟩ := h
  by_cases hmem : getChannel s ∈ channels.map Prod.fst
  · obtain ⟨pre, g, post, hch, hadd, hpre, hpost⟩ :=
      addSession_of_mem slots channels s hnd hmem
    rw [hadd]
    have hsame :
        (pre ++ (getChannel s, sortGroup slots (g ++ [s])) :: post).map Prod.fst =
          channels.map Prod.fst := by
      rw [hch]
      simp
    refine ⟨?_, ?_, ?_⟩
    · rw [hsame]
      exact hnd
    · intro t ht
      rw [hsame]
      rcases List.mem_append.mp ht with ht | ht
      · exact hkeys t ht
      · have hts : t = s := by simpa using ht
        subst hts
        exact hmem
    · intro p hp
      rcases List.mem_append.mp hp with hp | hp
      · have hpold : p ∈ channels := by
          rw [hch]
          exact List.mem_append_left _ hp
        have hold := hgroups p hpold
        have hkne : getChannel s ≠ p.1 := by
          intro he
          exact hpre (he ▸ List.mem_map_of_mem Prod.fst hp)
        exact channelsInvEntry_extend slots processed s p hold.1 hold.2.1
          hold.2.2 hkne
      · rcases List.mem_cons.mp hp with hp | hp
        · subst hp
          have hgold := hgroups (getChannel s, g) (by rw [hch]; simp)
          refine ⟨⟨s, by simp, rfl⟩, ?_, sortGroup_sorted _ _⟩
          have hp1 : List.Perm (sortGroup slots (g ++ [s])) (g ++ [s]) :=
            sortGroup_perm _ _
          have hp2 : List.Perm (g ++ [s])
              (processed.filter (fun t => getChannel t == getChannel s) ++ [s]) :=
            List.Perm.append_right [s] hgold.2.1
          have hfe : (processed ++ [s]).filter
                (fun t => getChannel t == getChannel s) =
              processed.filter (fun t => getChannel t == getChannel s) ++ [s] := by
            rw [List.filter_append]
            simp
          rw [hfe]
          exact hp1.trans hp2
        · have hpold : p ∈ channels := by
            rw [hch]
            exact List.mem_append_right _ (List.mem_cons_of_mem _ hp)
          have hold := hgroups p hpold
          have hkne : getChannel s ≠ p.1 := by
            intro he
            exact hpost (he ▸ List.mem_map_of_mem Prod.fst hp)
          exact channelsInvEntry_extend slots processed s p hold.1 hold.2.1
            hold.2.2 hkne
  · rw [addSession_of_not_mem slots channels s hmem]
    refine ⟨?_, ?_, ?_⟩
    · rw [List.map_append]
      refine List.nodup_append.mpr ⟨hnd, by simp, ?_⟩
      intro a ha hb
      have hab : a = getChannel s := by simpa using hb
      subst hab
      exact hmem ha
    · intro t ht
      rw [List.map_append]
      rcases List.mem_append.mp ht with ht | ht
      · exact List.mem_append_left _ (hkeys t ht)
      · have hts : t = s := by simpa using ht
        subst hts
        apply List.mem_append_right
        simp
    · intro p hp
      rcases List.mem_append.mp hp with hp | hp
      · have hold := hgroups p hp
        have hkne : getChannel s ≠ p.1 := by
          intro he
          exact hmem (he ▸ List.mem_map_of_mem Prod.fst hp)
        exact channelsInvEntry_extend slots processed s p hold.1 hold.2.1
          hold.2.2 hkne
      · have hps : p = (getChannel s, sortGroup slots [s]) := by simpa using hp
        subst hps
        have hsort1 : sortGroup slots [s] = [s] := by
          simp [sortGroup]
        refine ⟨⟨s, by simp, rfl⟩, ?_, ?_⟩
        · rw [List.filter_append]
          have hfp : processed.filter (fun t => getChannel t == getChannel s) = [] := by
            apply List.filter_eq_nil_iff.mpr
            intro t ht
            simp only [beq_iff_eq]
            intro he
            exact hmem (he ▸ hkeys t ht)
          rw [hfp, List.nil_append, hsort1]
          have hfs : List.filter (fun t => getChannel t == getChannel s) [s] = [s] := by
            simp
          rw [hfs]
        · rw [hsort1]
          exact List.sorted_singleton s

/-- The grouping invariant holds after folding over any session list. -/
theorem channelsInv_foldl (slots : List Slot) (sessions : List Session) :
    ∀ (processed : List Session) (channels : List (String × List Session)),
    ChannelsInv slots processed channels →
    ChannelsInv slots (processed ++ sessions)
      (sessions.foldl (addSession slots) channels) := by
  induction sessions with
  | nil =>
    intro processed channels h
    simpa using h
  | cons s rest ih =>
    intro processed channels h
    have h2 := ih (processed ++ [s]) (addSession slots channels s)
      (channelsInv_add slots processed channels s h)
    simpa [List.append_assoc] using h2

/-- The grouping invariant holds of the computed channels mapping. -/
theorem channelsInv_computeChannels (slots : List Slot) (sessions : List Session) :
    ChannelsInv slots sessions (computeChannels slots sessions) := by
  have h := channelsInv_foldl slots sessions [] []
    ⟨List.nodup_nil, by simp, by simp⟩
  simpa [computeChannels] using h

/-- C2: the grouper groups the validated sessions by their derived channel
identifier; each group holds exactly the sessions of its channel, sorted by
ascending index of the session's slot in the global slot ordering (slots
not found having index -1, sorting first); and the head of each group is
that channel's representative session for the later commands. -/
theorem channelGrouper (slots : List Slot) (sessions : List Session) :
    (∀ p ∈ computeChannels slots sessions,
      (∀ t ∈ p.2, getChannel t = p.1) ∧
      List.Perm p.2 (sessions.filter (fun t => getChannel t == p.1)) ∧
      p.2.Sorted (sessLE slots) ∧
      (∃ r, p.2.head? = some r ∧ r ∈ representatives slots sessions ∧
        ∀ t ∈ p.2, sessLE slots r t)) ∧
    (∀ t ∈ sessions,
      getChannel t ∈ (computeChannels slots sessions).map Prod.fst) := by
  obtain ⟨hnd, hkeys, hgroups⟩ := channelsInv_computeChannels slots sessions
  refine ⟨?_, hkeys⟩
  intro p hp
  obtain ⟨hex, hperm, hsort⟩ := hgroups p hp
  have hchan : ∀ t ∈ p.2, getChannel t = p.1 := by
    intro t ht
    have htf : t ∈ sessions.filter (fun t2 => getChannel t2 == p.1) :=
      (hperm.mem_iff).mp ht
    exact beq_iff_eq.mp (List.mem_filter.mp htf).2
  refine ⟨hchan, hperm, hsort, ?_⟩
  have hne : p.2 ≠ [] := by
    obtain ⟨t, ht1, ht2⟩ := hex
    intro hn
    have htf : t ∈ sessions.filter (fun t2 => getChannel t2 == p.1) :=
      List.mem_filter.mpr ⟨ht1, by simp [ht2]⟩
    have hmem2 : t ∈ p.2 := (hperm.mem_iff).mpr htf
    rw [hn] at hmem2
    exact List.not_mem_nil t hmem2
  cases hcp : p.2 with
  | nil => exact absurd hcp hne
  | cons r rest =>
    refine ⟨r, ?_, ?_, ?_⟩
    · exact List.head?_cons
    · apply List.mem_filterMap.mpr
      exact ⟨p, hp, by simp [hcp]⟩
    · intro t ht
      rcases List.mem_cons.mp ht with ht | ht
      · subst ht
        exact le_refl (slotIndex slots t.slot)
      · have hs2 : (r :: rest).Sorted (sessLE slots) := by
          rw [← hcp]
          exact hsort
        exact (List.sorted_cons.mp hs2).1 t ht

/-- Witness for C2 at concrete inputs: two sessions sharing the demo
channel, inserted latest slot first, come out as one group sorted by slot
with the earliest session as head and representative. -/
theorem channelGrouper_witness :
    (∀ t ∈ ([demoSession, demoSession2] : List Session),
      getChannel t = "breakout-1") ∧
    List.Perm ([demoSession, demoSession2] : List Session)
      ([demoSession2, demoSession].filter (fun t => getChannel t == "breakout-1")) ∧
    ([demoSession, demoSession2] : List Session).Sorted (sessLE demoSlots) ∧
    (∃ r, ([demoSession, demoSession2] : List Session).head? = some r ∧
      r ∈ representatives demoSlots [demoSession2, demoSession] ∧
      ∀ t ∈ ([demoSession, demoSession2] : List Session), sessLE demoSlots r t) :=
  (channelGrouper demoSlots [demoSession2, demoSession]).1
    ("breakout-1", [demoSession, demoSession2]) (by decide)

/-- Witness for C6 at concrete inputs: a benign duplicate-invite error is
recovered into the join transition; a different error is re-raised. -/
theorem errorRecovery_witness :
    handleError demoRooms demoTodo false [demoSession]
        { command := "err_useronchannel",
          args := ["tpac-breakout-bot", "RRSAgent", "breakout-1"] } =
      Except.ok (handleJoin demoRooms demoTodo false [demoSession]
        "breakout-1" "RRSAgent") ∧
    handleError demoRooms demoTodo false [demoSession]
        { command := "err_nosuchchannel", args := [] } =
      Except.error { command := "err_nosuchchannel", args := [] } :=
  ⟨(errorRecovery demoRooms demoTodo false [demoSession]
      { command := "err_useronchannel",
        args := ["tpac-breakout-bot", "RRSAgent", "breakout-1"] }).1 rfl,
   (errorRecovery demoRooms demoTodo false [demoSession]
      { command := "err_nosuchchannel", args := [] }).2 (by decide)⟩

end SetupIrc
